import Mathlib

set_option maxRecDepth 100000

/-!
Shallow embedding of the SmartClock firmware core (geekmagic-tv-esp8266):
the persisted-settings integrity layer (src/src/settings.cpp, settings.h),
the boot-failure / power-cycle counters, the factory-reset orchestration
(src/src/main.cpp setup, src/src/webserver.cpp handleFactoryReset), and the
WiFi connectivity state machine (tryConnectWiFi / setupWiFi / monitorWiFi in
src/src/main.cpp).

The EEPROM settings region is modelled at the byte level: a `List Nat` of
byte values (each < 256), laid out exactly as the ESP8266 (32-bit
little-endian, 4-byte alignment) lays out `struct Settings`:
  offset 0  : uint16 version
  offset 2  : 2 padding bytes
  offset 4  : int32 brightness
  offset 8  : int32 theme
  offset 12 : char lastImage[64]
  offset 76 : int32 gmtOffset (long is 4 bytes on ESP8266)
  offset 80 : bool valid (1 byte) + 3 padding bytes
  offset 84 : uint32 crc
so sizeof(Settings) = 88 and the CRC covers the first 84 bytes
(sizeof(Settings) - sizeof(uint32_t)).  Padding bytes written by the model
are 0 (a fixed, self-consistent choice for the bytes C leaves unspecified).
The stored region is `[2-byte magic][Settings]` = 90 bytes.
-/

/-- Little-endian 2-byte encoding of a 16-bit value. -/
def bytes2 (n : Nat) : List Nat := [n % 256, n / 256 % 256]

/-- Little-endian 4-byte encoding of a 32-bit value. -/
def bytes4 (n : Nat) : List Nat :=
  [n % 256, n / 256 % 256, n / 65536 % 256, n / 16777216 % 256]

/-- Read a little-endian uint16 at byte offset i. -/
def read16 (l : List Nat) (i : Nat) : Nat :=
  l.getD i 0 + 256 * l.getD (i + 1) 0

/-- Read a little-endian uint32 at byte offset i. -/
def read32 (l : List Nat) (i : Nat) : Nat :=
  l.getD i 0 + 256 * l.getD (i + 1) 0 + 65536 * l.getD (i + 2) 0 +
    16777216 * l.getD (i + 3) 0

/-- Reinterpret a uint32 bit pattern as a signed two's-complement int32. -/
def toInt32 (n : Nat) : Int :=
  if n < 2 ^ 31 then (n : Int) else (n : Int) - 2 ^ 32

/-- Little-endian 4-byte encoding of a signed 32-bit value. -/
def int32bytes (i : Int) : List Nat := bytes4 (i % 2 ^ 32).toNat

/-- Overwrite bytes of l starting at offset i (EEPROM.put of a multi-byte value). -/
def writeBytes : List Nat → Nat → List Nat → List Nat
  | l, _, [] => l
  | l, i, b :: bs => writeBytes (l.set i b) (i + 1) bs

/-- CRC32 nibble lookup table from settings.cpp (crc32_table). -/
def crc32_table (n : Nat) : Nat :=
  [0x00000000, 0x1db71064, 0x3b6e20c8, 0x26d930ac,
   0x76dc4190, 0x6b6b51f4, 0x4db26158, 0x5005713c,
   0xedb88320, 0xf00f9344, 0xd6d6a3e8, 0xcb61b38c,
   0x9b64c2b0, 0x86d3d2d4, 0xa00ae278, 0xbdbdf21c].getD n 0

/-- One nibble step of the CRC update: crc = table[crc & 0x0F] ^ (crc >> 4). -/
def crcNibble (c : Nat) : Nat := crc32_table (c % 16) ^^^ (c >>> 4)

/-- One byte step of the CRC loop body: crc ^= data[i], then two nibble steps. -/
def crcByte (c b : Nat) : Nat := crcNibble (crcNibble (c ^^^ b))

/-- Fold the CRC loop over a byte list from a starting state. -/
def crcFold (c : Nat) (l : List Nat) : Nat := l.foldl crcByte c

/-- CRC32 of a byte list: init 0xFFFFFFFF, per-byte loop, final bitwise NOT. -/
def crc32bytes (l : List Nat) : Nat := crcFold 0xFFFFFFFF l ^^^ 0xFFFFFFFF

/-- Firmware schema version (settings.h FIRMWARE_VERSION). -/
def FIRMWARE_VERSION : Nat := 2

/-- Settings region magic (settings.cpp SETTINGS_MAGIC). -/
def SETTINGS_MAGIC : Nat := 0xCAFE

/-- Version field of a stored Settings record (uint16 at offset 0). -/
def versionOf (s : List Nat) : Nat := read16 s 0

/-- Brightness field of a stored Settings record (int at offset 4). -/
def brightnessOf (s : List Nat) : Int := toInt32 (read32 s 4)

/-- Theme field of a stored Settings record (int at offset 8). -/
def themeOf (s : List Nat) : Int := toInt32 (read32 s 8)

/-- Image-path field of a stored Settings record (char[64] at offset 12). -/
def lastImageOf (s : List Nat) : List Nat := (s.drop 12).take 64

/-- GMT-offset field of a stored Settings record (long at offset 76). -/
def gmtOffsetOf (s : List Nat) : Int := toInt32 (read32 s 76)

/-- Stored crc field of a Settings record (uint32 at offset 84). -/
def crcFieldOf (s : List Nat) : Nat := read32 s 84

/-- CRC32 over a Settings record excluding the crc field (settingsCalculateCRC). -/
def settingsCalculateCRC (s : List Nat) : Nat := crc32bytes (s.take 84)

/-- Validation of a loaded Settings record (settingsValidate): version check,
CRC check, then brightness and theme range checks, in source order. -/
def settingsValidate (s : List Nat) : Bool :=
  if versionOf s ≠ FIRMWARE_VERSION then false
  else if settingsCalculateCRC s ≠ crcFieldOf s then false
  else if brightnessOf s < 0 ∨ 100 < brightnessOf s then false
  else if themeOf s < 0 ∨ 10 < themeOf s then false
  else true

/-- Factory-default Settings record (settingsReset): version = FIRMWARE_VERSION,
brightness 70, theme 0, empty image path, gmtOffset 3600, valid = true, with
crc computed over the preceding 84 bytes. -/
def settingsReset : List Nat :=
  let base := bytes2 FIRMWARE_VERSION ++ [0, 0] ++ int32bytes 70 ++ int32bytes 0 ++
    List.replicate 64 0 ++ int32bytes 3600 ++ [1, 0, 0, 0]
  base ++ bytes4 (crc32bytes base)

/-- Stamping done by settingsSave on the record it writes: version is set to
FIRMWARE_VERSION, then crc is recomputed over the first 84 bytes. -/
def stampRecord (s : List Nat) : List Nat :=
  let t := writeBytes s 0 (bytes2 FIRMWARE_VERSION)
  writeBytes t 84 (bytes4 (settingsCalculateCRC t))

/-- Stored settings region produced by settingsSave: the 2-byte magic followed
by the stamped record, committed as one region. -/
def settingsSave (s : List Nat) : List Nat :=
  bytes2 SETTINGS_MAGIC ++ stampRecord s

/-- Load of the settings region (settingsLoad): returns the record handed to
the caller and the settings region after the call (self-healing writes). -/
def settingsLoad (region : List Nat) : List Nat × List Nat :=
  if read16 region 0 = SETTINGS_MAGIC then
    let s := (region.drop 2).take 88
    if settingsValidate s then (s, region)
    else (settingsReset, settingsSave settingsReset)
  else (settingsReset, settingsSave settingsReset)

/-- Boot counter region magic (settings.cpp BOOT_COUNTER_MAGIC). -/
def BOOT_COUNTER_MAGIC : Nat := 0xB007

/-- Boot-failure threshold (settings.cpp BOOT_FAILURE_THRESHOLD). -/
def BOOT_FAILURE_THRESHOLD : Nat := 5

/-- Power-cycle counter region magic (settings.cpp POWER_CYCLE_COUNTER_MAGIC). -/
def POWER_CYCLE_COUNTER_MAGIC : Nat := 0x5C01

/-- Power-cycle threshold (settings.cpp POWER_CYCLE_THRESHOLD). -/
def POWER_CYCLE_THRESHOLD : Nat := 5

/-- Stored BootCounter record (settings.h struct BootCounter); failCount is a
uint8, lastBootTime a uint32. -/
structure BootCounter where
  magic : Nat
  failCount : Nat
  lastBootTime : Nat
deriving DecidableEq

/-- Stored PowerCycleCounter record (settings.h struct PowerCycleCounter). -/
structure PowerCycleCounter where
  magic : Nat
  cycleCount : Nat
deriving DecidableEq

/-- Read of the boot-failure count (bootCounterGet): magic mismatch reads as 0. -/
def bootCounterGet (c : BootCounter) : Nat :=
  if c.magic = BOOT_COUNTER_MAGIC then c.failCount else 0

/-- Increment of the boot-failure count (bootCounterIncrement): with matching
magic the uint8 failCount wraps modulo 256; otherwise the record is
initialized with magic set, failCount 1, lastBootTime 0. -/
def bootCounterIncrement (c : BootCounter) : BootCounter :=
  if c.magic = BOOT_COUNTER_MAGIC then
    { c with failCount := (c.failCount + 1) % 256 }
  else
    ⟨BOOT_COUNTER_MAGIC, 1, 0⟩

/-- Reset of the boot counter (bootCounterReset): count 0, timestamp = millis. -/
def bootCounterReset (now : Nat) : BootCounter :=
  ⟨BOOT_COUNTER_MAGIC, 0, now % 2 ^ 32⟩

/-- Boot-failure threshold check (bootCounterCheckFailsafe). -/
def bootCounterCheckFailsafe (c : BootCounter) : Bool :=
  BOOT_FAILURE_THRESHOLD ≤ bootCounterGet c

/-- Read of the power-cycle count (powerCycleCounterGet). -/
def powerCycleCounterGet (c : PowerCycleCounter) : Nat :=
  if c.magic = POWER_CYCLE_COUNTER_MAGIC then c.cycleCount else 0

/-- Increment of the power-cycle count (powerCycleCounterIncrement). -/
def powerCycleCounterIncrement (c : PowerCycleCounter) : PowerCycleCounter :=
  if c.magic = POWER_CYCLE_COUNTER_MAGIC then
    { c with cycleCount := (c.cycleCount + 1) % 256 }
  else
    ⟨POWER_CYCLE_COUNTER_MAGIC, 1⟩

/-- Reset of the power-cycle counter (powerCycleCounterReset). -/
def powerCycleCounterReset : PowerCycleCounter :=
  ⟨POWER_CYCLE_COUNTER_MAGIC, 0⟩

/-- Power-cycle threshold check (powerCycleCounterCheckReset). -/
def powerCycleCounterCheckReset (c : PowerCycleCounter) : Bool :=
  POWER_CYCLE_THRESHOLD ≤ powerCycleCounterGet c

/-- Persistent EEPROM state: the three non-overlapping regions (settings at
SETTINGS_ADDR, boot counter at BOOT_COUNTER_ADDR, power-cycle counter at
POWER_CYCLE_COUNTER_ADDR). -/
structure EEPROMState where
  settingsRegion : List Nat
  boot : BootCounter
  power : PowerCycleCounter
deriving DecidableEq

/-- Persisted effect of the factory-reset sequence in setup() (main.cpp,
power-cycle gesture path): settingsReset + settingsSave, bootCounterReset,
powerCycleCounterReset, then restart. -/
def setupFactoryReset (e : EEPROMState) (now : Nat) : EEPROMState :=
  { e with
    settingsRegion := settingsSave settingsReset
    boot := bootCounterReset now
    power := powerCycleCounterReset }

/-- Persisted effect of handleFactoryReset (webserver.cpp, HTTP path):
settingsReset + settingsSave and bootCounterReset, then LittleFS format and
restart; the power-cycle counter region is not touched. -/
def handleFactoryReset (e : EEPROMState) (now : Nat) : EEPROMState :=
  { e with
    settingsRegion := settingsSave settingsReset
    boot := bootCounterReset now }

/-!
WiFi connectivity model (main.cpp).  The blocking connection attempts are
modelled by an oracle `connectOK : Nat → Bool` giving the outcome of the
k-th timed attempt of the current tryConnectWiFi call; the externally
observable actions are collected as an event trace.
-/

/-- Base retry delay in ms (config.h WIFI_RETRY_DELAY_MS). -/
def WIFI_RETRY_DELAY_MS : Nat := 2000

/-- Number of initial connection attempts (config.h WIFI_RETRY_ATTEMPTS). -/
def WIFI_RETRY_ATTEMPTS : Nat := 5

/-- Observable connectivity actions. -/
inductive WifiEvent where
  /-- One timed connection attempt: WiFi.begin plus the bounded wait loop
  polling status up to WIFI_CONNECTION_TIMEOUT. -/
  | attemptWait (attempt : Nat)
  /-- Backoff delay of the given milliseconds between attempts. -/
  | backoffDelay (ms : Nat)
  /-- Entry into the WiFiManager config portal (wifiManager.autoConnect). -/
  | configPortal
  /-- Start of the failsafe access point (WiFi.softAP). -/
  | failsafeAP
  /-- Full device restart (ESP.restart). -/
  | restart
deriving DecidableEq

/-- Loop body of tryConnectWiFi: attempt is the current attempt number, rem+1
the number of attempts still allowed.  Emits the timed attempt; on failure
and when another attempt remains, emits the exponential-backoff delay
min(WIFI_RETRY_DELAY_MS * 2^(attempt-1), 30000) and recurses. -/
def tryConnectGo (connectOK : Nat → Bool) : Nat → Nat → Bool × List WifiEvent
  | _, 0 => (false, [])
  | attempt, rem + 1 =>
    let ev := WifiEvent.attemptWait attempt
    if connectOK attempt then (true, [ev])
    else if rem = 0 then (false, [ev])
    else
      let d := min (WIFI_RETRY_DELAY_MS * 2 ^ (attempt - 1)) 30000
      let r := tryConnectGo connectOK (attempt + 1) rem
      (r.1, ev :: WifiEvent.backoffDelay d :: r.2)

/-- Model of tryConnectWiFi(maxAttempts): attempts run from 1 to maxAttempts;
returns whether a connection was established plus the event trace. -/
def tryConnectWiFi (connectOK : Nat → Bool) (maxAttempts : Nat) :
    Bool × List WifiEvent :=
  tryConnectGo connectOK 1 maxAttempts

/-- Model of setupWiFi: given the saved SSID, the attempt oracle and the
config-portal outcome, returns the resulting wifiFailsafeMode flag and the
event trace.  An empty saved SSID goes directly to the failsafe AP; otherwise
5 retried attempts, then the config portal, then the failsafe AP. -/
def setupWiFi (ssid : String) (connectOK : Nat → Bool) (portalOK : Bool) :
    Bool × List WifiEvent :=
  if ssid.isEmpty then (true, [WifiEvent.failsafeAP])
  else
    let r := tryConnectWiFi connectOK WIFI_RETRY_ATTEMPTS
    if r.1 then (false, r.2)
    else if portalOK then (false, r.2 ++ [WifiEvent.configPortal])
    else (true, r.2 ++ [WifiEvent.configPortal, WifiEvent.failsafeAP])

/-- In-memory connectivity monitoring state used by monitorWiFi. -/
structure MonState where
  wifiFailsafeMode : Bool
  lastWiFiCheck : Nat
  lastWiFiReconnectAttempt : Nat
deriving DecidableEq

/-- Reconnect interval in failsafe mode (config.h WIFI_RECONNECT_INTERVAL). -/
def WIFI_RECONNECT_INTERVAL : Nat := 300000

/-- Link check interval while connected (config.h WIFI_MONITOR_INTERVAL). -/
def WIFI_MONITOR_INTERVAL : Nat := 60000

/-- Model of monitorWiFi: in failsafe mode, when credentials are saved and the
reconnect interval elapsed, 2 quick attempts and a restart on success; in
normal mode, on the monitor interval with the link down, 3 quick attempts and
a transition to the failsafe AP (without restart) when all fail. -/
def monitorWiFi (st : MonState) (now : Nat) (ssid : String) (connected : Bool)
    (connectOK : Nat → Bool) : MonState × List WifiEvent :=
  if st.wifiFailsafeMode then
    if ¬ ssid.isEmpty then
      if WIFI_RECONNECT_INTERVAL < now - st.lastWiFiReconnectAttempt then
        let r := tryConnectWiFi connectOK 2
        if r.1 then
          ({ st with wifiFailsafeMode := false, lastWiFiReconnectAttempt := now },
            r.2 ++ [WifiEvent.restart])
        else ({ st with lastWiFiReconnectAttempt := now }, r.2)
      else (st, [])
    else (st, [])
  else
    if WIFI_MONITOR_INTERVAL < now - st.lastWiFiCheck then
      if ¬ connected then
        let r := tryConnectWiFi connectOK 3
        if r.1 then ({ st with lastWiFiCheck := now }, r.2)
        else
          ({ st with lastWiFiCheck := now, wifiFailsafeMode := true },
            r.2 ++ [WifiEvent.failsafeAP])
      else ({ st with lastWiFiCheck := now }, [])
    else (st, [])

/-- HTTP /set arguments (webserver.cpp handleSet): each optional, applied in
source order brightness, theme, image, gmt; integer arguments carry the
already-parsed value of server.arg(..).toInt(). -/
structure SetArgs where
  brt : Option Int := none
  theme : Option Int := none
  img : Option (List Nat) := none
  gmt : Option Int := none

/-- Arduino constrain(x, a, b). -/
def constrain (x a b : Int) : Int := if x < a then a else if b < x then b else x

/-- Effect of the image-path branch of handleSet on the lastImage field:
strncpy(lastImage, img, 63) copies at most 63 bytes, zero-padding up to
offset 62 when the source is shorter; byte 63 of the field is untouched. -/
def strncpy63 (field img : List Nat) : List Nat :=
  (img.take 63 ++ List.replicate (63 - img.length) 0) ++ (field.drop 63).take 1

/-- Model of handleSet (webserver.cpp): applies each supplied argument to the
in-memory record, persisting with settingsSave after each mutation; returns
the final in-memory record and the final stored settings region (none when no
mutating argument persisted). -/
def handleSet (args : SetArgs) (s : List Nat) : List Nat × Option (List Nat) :=
  let step : List Nat × Option (List Nat) → Option (List Nat → List Nat) →
      List Nat × Option (List Nat) := fun acc upd =>
    match upd with
    | none => acc
    | some f => let s2 := f acc.1; (s2, some (settingsSave s2))
  let brtUpd := args.brt.map fun b s =>
    writeBytes s 4 (int32bytes (constrain b 0 100))
  let themeUpd := args.theme.map fun t s =>
    writeBytes s 8 (int32bytes t)
  let imgUpd := args.img.map fun img s =>
    writeBytes s 12 (strncpy63 (lastImageOf s) img)
  let gmtUpd := args.gmt.map fun g s =>
    writeBytes s 76 (int32bytes g)
  step (step (step (step (s, none) brtUpd) themeUpd) imgUpd) gmtUpd

/-- Recognizer for timed connection attempts in a trace. -/
def isTimedAttempt : WifiEvent → Bool
  | WifiEvent.attemptWait _ => true
  | _ => false

/-- Recognizer for backoff delays in a trace. -/
def isBackoff : WifiEvent → Bool
  | WifiEvent.backoffDelay _ => true
  | _ => false


/-!
CRC32 error-detection lemmas: each nibble step is injective on 32-bit states,
hence the byte step is injective both in the state and in the byte, hence two
byte strings that differ in exactly one byte have different CRCs.
-/

theorem shiftRight_xor_distrib (a b k : Nat) :
    (a ^^^ b) >>> k = a >>> k ^^^ b >>> k :=
  Nat.eq_of_testBit_eq fun i => by
    simp [Nat.testBit_shiftRight, Nat.testBit_xor]

theorem xor_left_cancel {a x y : Nat} (h : a ^^^ x = a ^^^ y) : x = y := by
  have h2 := congrArg (a ^^^ ·) h
  simpa [← Nat.xor_assoc, Nat.xor_self, Nat.zero_xor] using h2

theorem xor_right_cancel {a x y : Nat} (h : x ^^^ a = y ^^^ a) : x = y := by
  rw [Nat.xor_comm x a, Nat.xor_comm y a] at h
  exact xor_left_cancel h

theorem crc32_table_lt (n : Nat) : crc32_table n < 2 ^ 32 := by
  by_cases h : n < 16
  · interval_cases n <;> decide
  · have h16 : 16 ≤ n := Nat.le_of_not_lt h
    simp only [crc32_table, List.getD_eq_getElem?_getD]
    rw [List.getElem?_eq_none (by simpa using h16)]
    decide

theorem crc32_table_top_inj : ∀ m n : Fin 16,
    crc32_table m >>> 28 = crc32_table n >>> 28 → m = n := by decide

theorem crcNibble_lt {c : Nat} (h : c < 2 ^ 32) : crcNibble c < 2 ^ 32 := by
  have h4 : c >>> 4 < 2 ^ 32 :=
    lt_of_le_of_lt (by rw [Nat.shiftRight_eq_div_pow]; exact Nat.div_le_self c 16) h
  exact Nat.xor_lt_two_pow (crc32_table_lt (c % 16)) h4

theorem crcNibble_inj {c1 c2 : Nat} (h1 : c1 < 2 ^ 32) (h2 : c2 < 2 ^ 32)
    (h : crcNibble c1 = crcNibble c2) : c1 = c2 := by
  unfold crcNibble at h
  have htop := congrArg (· >>> 28) h
  simp only [shiftRight_xor_distrib, ← Nat.shiftRight_add] at htop
  have z1 : c1 >>> (4 + 28) = 0 := by
    rw [Nat.shiftRight_eq_div_pow]; exact Nat.div_eq_of_lt h1
  have z2 : c2 >>> (4 + 28) = 0 := by
    rw [Nat.shiftRight_eq_div_pow]; exact Nat.div_eq_of_lt h2
  rw [z1, z2, Nat.xor_zero, Nat.xor_zero] at htop
  have hmod : c1 % 16 = c2 % 16 := by
    have := crc32_table_top_inj ⟨c1 % 16, Nat.mod_lt _ (by norm_num)⟩
      ⟨c2 % 16, Nat.mod_lt _ (by norm_num)⟩ htop
    exact congrArg Fin.val this
  rw [hmod] at h
  have hdiv : c1 >>> 4 = c2 >>> 4 := xor_left_cancel h
  rw [Nat.shiftRight_eq_div_pow, Nat.shiftRight_eq_div_pow] at hdiv
  have e1 := Nat.div_add_mod c1 16
  have e2 := Nat.div_add_mod c2 16
  omega

theorem crcByte_lt {c b : Nat} (hc : c < 2 ^ 32) (hb : b < 2 ^ 32) :
    crcByte c b < 2 ^ 32 :=
  crcNibble_lt (crcNibble_lt (Nat.xor_lt_two_pow hc hb))

theorem crcByte_inj_state {b c1 c2 : Nat} (hc1 : c1 < 2 ^ 32) (hc2 : c2 < 2 ^ 32)
    (hb : b < 2 ^ 32) (h : crcByte c1 b = crcByte c2 b) : c1 = c2 := by
  unfold crcByte at h
  have hx1 : c1 ^^^ b < 2 ^ 32 := Nat.xor_lt_two_pow hc1 hb
  have hx2 : c2 ^^^ b < 2 ^ 32 := Nat.xor_lt_two_pow hc2 hb
  have h2 := crcNibble_inj (crcNibble_lt hx1) (crcNibble_lt hx2) h
  exact xor_right_cancel (crcNibble_inj hx1 hx2 h2)

theorem crcByte_inj_byte {c b1 b2 : Nat} (hc : c < 2 ^ 32) (hb1 : b1 < 2 ^ 32)
    (hb2 : b2 < 2 ^ 32) (h : crcByte c b1 = crcByte c b2) : b1 = b2 := by
  unfold crcByte at h
  have hx1 : c ^^^ b1 < 2 ^ 32 := Nat.xor_lt_two_pow hc hb1
  have hx2 : c ^^^ b2 < 2 ^ 32 := Nat.xor_lt_two_pow hc hb2
  have h2 := crcNibble_inj (crcNibble_lt hx1) (crcNibble_lt hx2) h
  exact xor_left_cancel (crcNibble_inj hx1 hx2 h2)

theorem crcFold_nil (c : Nat) : crcFold c [] = c := rfl

theorem crcFold_cons (c b : Nat) (l : List Nat) :
    crcFold c (b :: l) = crcFold (crcByte c b) l := rfl

theorem crcFold_append (c : Nat) (l1 l2 : List Nat) :
    crcFold c (l1 ++ l2) = crcFold (crcFold c l1) l2 :=
  List.foldl_append ..

theorem crcFold_lt {c : Nat} {l : List Nat} (hc : c < 2 ^ 32)
    (hl : ∀ x ∈ l, x < 2 ^ 32) : crcFold c l < 2 ^ 32 := by
  induction l generalizing c with
  | nil => exact hc
  | cons b l ih =>
    rw [crcFold_cons]
    exact ih (crcByte_lt hc (hl b (List.mem_cons_self b l))) fun x hx =>
      hl x (List.mem_cons_of_mem _ hx)

theorem crcFold_inj_state {l : List Nat} {c1 c2 : Nat}
    (hl : ∀ x ∈ l, x < 2 ^ 32) (hc1 : c1 < 2 ^ 32) (hc2 : c2 < 2 ^ 32)
    (h : crcFold c1 l = crcFold c2 l) : c1 = c2 := by
  induction l generalizing c1 c2 with
  | nil => exact h
  | cons b l ih =>
    rw [crcFold_cons, crcFold_cons] at h
    have hb : b < 2 ^ 32 := hl b (List.mem_cons_self b l)
    have := ih (fun x hx => hl x (List.mem_cons_of_mem _ hx))
      (crcByte_lt hc1 hb) (crcByte_lt hc2 hb) h
    exact crcByte_inj_state hc1 hc2 hb this

/-- Two byte strings that agree everywhere except in one byte position have
different CRC32 values. -/
theorem crc32bytes_ne_single {p t : List Nat} {b1 b2 : Nat}
    (hp : ∀ x ∈ p, x < 2 ^ 32) (ht : ∀ x ∈ t, x < 2 ^ 32)
    (hb1 : b1 < 2 ^ 32) (hb2 : b2 < 2 ^ 32) (hne : b1 ≠ b2) :
    crc32bytes (p ++ b1 :: t) ≠ crc32bytes (p ++ b2 :: t) := by
  intro h
  unfold crc32bytes at h
  rw [crcFold_append, crcFold_append, crcFold_cons, crcFold_cons] at h
  have hc : crcFold 0xFFFFFFFF p < 2 ^ 32 := crcFold_lt (by norm_num) hp
  have h2 := xor_right_cancel h
  have h3 := crcFold_inj_state ht (crcByte_lt hc hb1) (crcByte_lt hc hb2) h2
  exact hne (crcByte_inj_byte hc hb1 hb2 h3)

/-!
Byte-store lemmas: how writeBytes interacts with reads, lengths, bounds.
-/

theorem writeBytes_length (bs : List Nat) : ∀ (l : List Nat) (i : Nat),
    (writeBytes l i bs).length = l.length := by
  induction bs with
  | nil => intro l i; rfl
  | cons b bs ih => intro l i; rw [writeBytes, ih, List.length_set]

theorem getElem?_writeBytes_out (bs : List Nat) : ∀ (l : List Nat) (i j : Nat),
    (j < i ∨ i + bs.length ≤ j) → (writeBytes l i bs)[j]? = l[j]? := by
  induction bs with
  | nil => intro l i j _; rfl
  | cons b bs ih =>
    intro l i j h
    simp only [List.length_cons] at h
    rw [writeBytes, ih _ _ _ (by omega), List.getElem?_set_ne (by omega : i ≠ j)]

theorem getElem?_writeBytes_at (bs : List Nat) : ∀ (l : List Nat) (i k : Nat),
    k < bs.length → i + bs.length ≤ l.length →
    (writeBytes l i bs)[i + k]? = bs[k]? := by
  induction bs with
  | nil => intro l i k hk _; simp at hk
  | cons b bs ih =>
    intro l i k hk hlen
    simp only [List.length_cons] at hk hlen
    cases k with
    | zero =>
      rw [writeBytes, getElem?_writeBytes_out bs _ _ _ (Or.inl (by omega))]
      simp [List.getElem?_set_self (by omega : i < l.length)]
    | succ k2 =>
      rw [writeBytes, show i + (k2 + 1) = (i + 1) + k2 by omega,
        ih _ _ _ (by omega) (by rw [List.length_set]; omega)]
      simp

theorem getD_writeBytes_out {bs l : List Nat} {i j : Nat}
    (h : j < i ∨ i + bs.length ≤ j) :
    (writeBytes l i bs).getD j 0 = l.getD j 0 := by
  simp [List.getD_eq_getElem?_getD, getElem?_writeBytes_out bs l i j h]

theorem getD_writeBytes_at {bs l : List Nat} {i k : Nat}
    (hk : k < bs.length) (hlen : i + bs.length ≤ l.length) :
    (writeBytes l i bs).getD (i + k) 0 = bs.getD k 0 := by
  simp [List.getD_eq_getElem?_getD, getElem?_writeBytes_at bs l i k hk hlen]

theorem read16_writeBytes_out {l bs : List Nat} {i j : Nat}
    (h : j + 2 ≤ i ∨ i + bs.length ≤ j) :
    read16 (writeBytes l i bs) j = read16 l j := by
  unfold read16
  rw [getD_writeBytes_out (by omega), getD_writeBytes_out (by omega)]

theorem read32_writeBytes_out {l bs : List Nat} {i j : Nat}
    (h : j + 4 ≤ i ∨ i + bs.length ≤ j) :
    read32 (writeBytes l i bs) j = read32 l j := by
  unfold read32
  rw [getD_writeBytes_out (by omega), getD_writeBytes_out (by omega),
    getD_writeBytes_out (by omega), getD_writeBytes_out (by omega)]

theorem read16_writeBytes_bytes2 {l : List Nat} {i n : Nat}
    (hlen : i + 2 ≤ l.length) (hn : n < 2 ^ 16) :
    read16 (writeBytes l i (bytes2 n)) i = n := by
  have hl : (bytes2 n).length = 2 := rfl
  have h0 := @getD_writeBytes_at (bytes2 n) l i 0
    (by omega) (by omega)
  have h1 := @getD_writeBytes_at (bytes2 n) l i 1
    (by omega) (by omega)
  unfold read16
  rw [show i + 0 = i from rfl] at h0
  rw [h0, h1]
  show n % 256 + 256 * (n / 256 % 256) = n
  omega

theorem read32_writeBytes_bytes4 {l : List Nat} {i n : Nat}
    (hlen : i + 4 ≤ l.length) (hn : n < 2 ^ 32) :
    read32 (writeBytes l i (bytes4 n)) i = n := by
  have hl : (bytes4 n).length = 4 := rfl
  have h0 := @getD_writeBytes_at (bytes4 n) l i 0
    (by omega) (by omega)
  have h1 := @getD_writeBytes_at (bytes4 n) l i 1
    (by omega) (by omega)
  have h2 := @getD_writeBytes_at (bytes4 n) l i 2
    (by omega) (by omega)
  have h3 := @getD_writeBytes_at (bytes4 n) l i 3
    (by omega) (by omega)
  unfold read32
  rw [show i + 0 = i from rfl] at h0
  rw [h0, h1, h2, h3]
  show n % 256 + 256 * (n / 256 % 256) + 65536 * (n / 65536 % 256) +
    16777216 * (n / 16777216 % 256) = n
  omega

theorem take84_writeBytes {l bs : List Nat} {i : Nat} (h : 84 ≤ i) :
    (writeBytes l i bs).take 84 = l.take 84 := by
  apply List.ext_getElem?
  intro n
  by_cases hn : n < 84
  · rw [List.getElem?_take_of_lt hn, List.getElem?_take_of_lt hn,
      getElem?_writeBytes_out bs l i n (Or.inl (by omega))]
  · rw [List.getElem?_eq_none, List.getElem?_eq_none]
    · rw [List.length_take]; omega
    · rw [List.length_take, writeBytes_length]; omega

theorem mem_writeBytes_bound (bs : List Nat) : ∀ (l : List Nat) (i : Nat),
    (∀ x ∈ l, x < 256) → (∀ x ∈ bs, x < 256) →
    ∀ x ∈ writeBytes l i bs, x < 256 := by
  induction bs with
  | nil => intro l i hl _ x hx; exact hl x hx
  | cons b bs ih =>
    intro l i hl hbs x hx
    refine ih (l.set i b) (i + 1) ?_ ?_ x hx
    · intro y hy
      rcases List.mem_or_eq_of_mem_set hy with h | h
      · exact hl y h
      · exact h ▸ hbs b (List.mem_cons_self b bs)
    · intro y hy
      exact hbs y (List.mem_cons_of_mem _ hy)

theorem getD_lt_256 {s : List Nat} (hb : ∀ x ∈ s, x < 256) (n : Nat) :
    s.getD n 0 < 256 := by
  by_cases hn : n < s.length
  · rw [List.getD_eq_getElem?_getD, List.getElem?_eq_getElem hn]
    exact hb _ (List.getElem_mem hn)
  · rw [List.getD_eq_getElem?_getD, List.getElem?_eq_none (by omega)]
    decide

theorem mem_bytes4_bound (n : Nat) : ∀ x ∈ bytes4 n, x < 256 := by
  intro x hx
  simp [bytes4] at hx
  rcases hx with h | h | h | h <;> omega

theorem mem_bytes2_bound (n : Nat) : ∀ x ∈ bytes2 n, x < 256 := by
  intro x hx
  simp [bytes2] at hx
  rcases hx with h | h <;> omega

theorem crc32bytes_lt {l : List Nat} (hl : ∀ x ∈ l, x < 2 ^ 32) :
    crc32bytes l < 2 ^ 32 :=
  Nat.xor_lt_two_pow (crcFold_lt (by norm_num) hl) (by norm_num)

theorem bound_take {l : List Nat} (hl : ∀ x ∈ l, x < 256) (n : Nat) :
    ∀ x ∈ l.take n, x < 2 ^ 32 := fun x hx =>
  lt_trans (hl x (List.mem_of_mem_take hx)) (by norm_num)

/-- The set-to-the-same-value write is the identity. -/
theorem writeBytes_of_getD_eq (bs : List Nat) : ∀ (l : List Nat) (i : Nat),
    (∀ k, k < bs.length → l.getD (i + k) 0 = bs.getD k 0) →
    i + bs.length ≤ l.length → writeBytes l i bs = l := by
  induction bs with
  | nil => intro l i _ _; rfl
  | cons b bs ih =>
    intro l i h hlen
    simp only [List.length_cons] at hlen
    have hset : l.set i b = l := by
      apply List.ext_getElem?
      intro n
      by_cases hn : i = n
      · subst hn
        rw [List.getElem?_set_self (by omega)]
        have hb := h 0 (by simp)
        rw [List.getD_eq_getElem?_getD, List.getElem?_eq_getElem (by omega)] at hb
        rw [List.getElem?_eq_getElem (by omega)]
        simpa using hb.symm
      · rw [List.getElem?_set_ne hn]
    rw [writeBytes, hset]
    refine ih l (i + 1) (fun k hk => ?_) (by omega)
    have := h (k + 1) (by simp; omega)
    rw [show i + (k + 1) = (i + 1) + k by omega] at this
    simpa using this

/-!
Properties of the record stamping performed by settingsSave.
-/

theorem settingsCalculateCRC_writeBytes_ge {l bs : List Nat} {i : Nat}
    (h : 84 ≤ i) :
    settingsCalculateCRC (writeBytes l i bs) = settingsCalculateCRC l := by
  unfold settingsCalculateCRC
  rw [take84_writeBytes h]

theorem stampRecord_length (s : List Nat) :
    (stampRecord s).length = s.length := by
  unfold stampRecord
  rw [writeBytes_length, writeBytes_length]

theorem versionOf_stampRecord (s : List Nat) (hlen : s.length = 88) :
    versionOf (stampRecord s) = FIRMWARE_VERSION := by
  unfold stampRecord versionOf
  rw [read16_writeBytes_out (Or.inl (by norm_num))]
  exact read16_writeBytes_bytes2 (by omega) (by norm_num [FIRMWARE_VERSION])

theorem brightnessOf_stampRecord (s : List Nat) :
    brightnessOf (stampRecord s) = brightnessOf s := by
  unfold stampRecord brightnessOf
  rw [read32_writeBytes_out (Or.inl (by norm_num)),
    read32_writeBytes_out (Or.inr (by norm_num [bytes2]))]

theorem themeOf_stampRecord (s : List Nat) :
    themeOf (stampRecord s) = themeOf s := by
  unfold stampRecord themeOf
  rw [read32_writeBytes_out (Or.inl (by norm_num)),
    read32_writeBytes_out (Or.inr (by norm_num [bytes2]))]

theorem crcOk_stampRecord (s : List Nat) (hlen : s.length = 88)
    (hb : ∀ x ∈ s, x < 256) :
    settingsCalculateCRC (stampRecord s) = crcFieldOf (stampRecord s) := by
  have htb : ∀ x ∈ writeBytes s 0 (bytes2 FIRMWARE_VERSION), x < 256 :=
    mem_writeBytes_bound _ s 0 hb (mem_bytes2_bound _)
  have htlen : (writeBytes s 0 (bytes2 FIRMWARE_VERSION)).length = 88 := by
    rw [writeBytes_length, hlen]
  have hc : settingsCalculateCRC (writeBytes s 0 (bytes2 FIRMWARE_VERSION)) < 2 ^ 32 :=
    crc32bytes_lt (bound_take htb 84)
  unfold stampRecord crcFieldOf
  rw [settingsCalculateCRC_writeBytes_ge (le_refl 84),
    read32_writeBytes_bytes4 (by omega) hc]

/-- The four checks established by a successful settingsValidate. -/
theorem settingsValidate_spec {s : List Nat} (h : settingsValidate s = true) :
    versionOf s = FIRMWARE_VERSION ∧ settingsCalculateCRC s = crcFieldOf s ∧
    0 ≤ brightnessOf s ∧ brightnessOf s ≤ 100 ∧
    0 ≤ themeOf s ∧ themeOf s ≤ 10 := by
  unfold settingsValidate at h
  split_ifs at h with h1 h2 h3 h4
  push_neg at h1 h2
  exact ⟨h1, h2, by omega, by omega, by omega, by omega⟩

theorem settingsValidate_stampRecord (s : List Nat) (hlen : s.length = 88)
    (hb : ∀ x ∈ s, x < 256)
    (hbr0 : 0 ≤ brightnessOf s) (hbr1 : brightnessOf s ≤ 100)
    (hth0 : 0 ≤ themeOf s) (hth1 : themeOf s ≤ 10) :
    settingsValidate (stampRecord s) = true := by
  unfold settingsValidate
  rw [versionOf_stampRecord s hlen, crcOk_stampRecord s hlen hb,
    brightnessOf_stampRecord s, themeOf_stampRecord s]
  have h1 : ¬ (brightnessOf s < 0 ∨ 100 < brightnessOf s) := by omega
  have h2 : ¬ (themeOf s < 0 ∨ 10 < themeOf s) := by omega
  simp [h1, h2]

/-- Saving a record that already passes validation rewrites it unchanged. -/
theorem stampRecord_eq_self (s : List Nat) (hlen : s.length = 88)
    (hb : ∀ x ∈ s, x < 256) (hv : settingsValidate s = true) :
    stampRecord s = s := by
  obtain ⟨hver, hcrc, _⟩ := settingsValidate_spec hv
  have hb0 := getD_lt_256 hb 0
  have hb1 := getD_lt_256 hb 1
  have hb84 := getD_lt_256 hb 84
  have hb85 := getD_lt_256 hb 85
  have hb86 := getD_lt_256 hb 86
  have hb87 := getD_lt_256 hb 87
  have hv2 : s.getD 0 0 + 256 * s.getD 1 0 = 2 := by
    simpa [versionOf, read16, FIRMWARE_VERSION] using hver
  have hcrc4 : s.getD 84 0 + 256 * s.getD 85 0 + 65536 * s.getD 86 0 +
      16777216 * s.getD 87 0 = settingsCalculateCRC s := by
    simpa [crcFieldOf, read32] using hcrc.symm
  have hclt : settingsCalculateCRC s < 2 ^ 32 := by
    unfold settingsCalculateCRC
    exact crc32bytes_lt (bound_take hb 84)
  unfold stampRecord
  have h01 : writeBytes s 0 (bytes2 FIRMWARE_VERSION) = s := by
    apply writeBytes_of_getD_eq
    · intro k hk
      simp only [bytes2, FIRMWARE_VERSION, List.length_cons, List.length_nil] at hk
      interval_cases k <;>
        simp only [bytes2, FIRMWARE_VERSION, List.getD_cons_zero,
          List.getD_cons_succ, Nat.add_zero, Nat.zero_add] <;> omega
    · simp [bytes2, hlen]
  rw [h01]
  apply writeBytes_of_getD_eq
  · intro k hk
    simp only [bytes4, List.length_cons, List.length_nil] at hk
    interval_cases k
    · show s.getD 84 0 = settingsCalculateCRC s % 256
      omega
    · show s.getD 85 0 = settingsCalculateCRC s / 256 % 256
      omega
    · show s.getD 86 0 = settingsCalculateCRC s / 65536 % 256
      omega
    · show s.getD 87 0 = settingsCalculateCRC s / 16777216 % 256
      omega
  · simp [bytes4, hlen]

/-- Reading back the settings magic over any record tail. -/
theorem read16_magic_head (s : List Nat) :
    read16 (bytes2 SETTINGS_MAGIC ++ s) 0 = SETTINGS_MAGIC := by
  have h0 : (bytes2 SETTINGS_MAGIC ++ s).getD 0 0 = 254 := by
    rw [show bytes2 SETTINGS_MAGIC = [254, 202] from rfl,
      List.getD_append [254, 202] s 0 0 (by norm_num)]
    decide
  have h1 : (bytes2 SETTINGS_MAGIC ++ s).getD 1 0 = 202 := by
    rw [show bytes2 SETTINGS_MAGIC = [254, 202] from rfl,
      List.getD_append [254, 202] s 0 1 (by norm_num)]
    decide
  unfold read16
  rw [show (0 : Nat) + 1 = 1 from rfl, h0, h1]
  norm_num [SETTINGS_MAGIC]

/-- C2: for every stored-region content, settingsLoad returns a record that
passes settingsValidate (firmware version, CRC, brightness and theme ranges);
whenever the stored magic mismatches or the stored record fails validation it
returns the freshly-reset defaults and persists them with settingsSave before
returning, and it never fails. -/
theorem settingsLoad_always_valid (region : List Nat) :
    settingsValidate (settingsLoad region).1 = true ∧
    (read16 region 0 ≠ SETTINGS_MAGIC ∨
        settingsValidate ((region.drop 2).take 88) = false →
      settingsLoad region = (settingsReset, settingsSave settingsReset)) ∧
    (read16 region 0 = SETTINGS_MAGIC →
        settingsValidate ((region.drop 2).take 88) = true →
      settingsLoad region = ((region.drop 2).take 88, region)) := by
  unfold settingsLoad
  by_cases h1 : read16 region 0 = SETTINGS_MAGIC
  · by_cases h2 : settingsValidate ((region.drop 2).take 88) = true
    · refine ⟨?_, ?_, ?_⟩ <;> simp [h1, h2]
    · refine ⟨?_, ?_, ?_⟩ <;> (simp [h1, h2]; try decide)
  · refine ⟨?_, ?_, ?_⟩ <;> (simp [h1]; try decide)

/-- C2 witness: on an empty region (magic mismatch) the load self-heals. -/
theorem settingsLoad_always_valid_witness :
    settingsLoad [] = (settingsReset, settingsSave settingsReset) :=
  (settingsLoad_always_valid []).2.1 (Or.inl (by decide))

/-- C3 counterexample: a record whose brightness field holds 200 is persisted
by settingsSave with a matching CRC, but the subsequent settingsLoad rejects
it on the brightness range check and returns the defaults, so the round trip
is not the identity on this record. -/
theorem settingsSave_load_not_roundtrip :
    (settingsLoad (settingsSave (writeBytes settingsReset 4 (int32bytes 200)))).1 ≠
      writeBytes settingsReset 4 (int32bytes 200) := by decide

/-- C3 amended: settingsSave followed by settingsLoad returns the identical
record provided the saved record passes validation (version equal to the
firmware schema version, matching CRC, brightness in 0..100, theme in 0..10);
a record failing validation is replaced by the defaults on load. -/
theorem settingsSave_load_roundtrip (s : List Nat) (hlen : s.length = 88)
    (hb : ∀ x ∈ s, x < 256) (hv : settingsValidate s = true) :
    settingsLoad (settingsSave s) = (s, settingsSave s) := by
  have hstamp : stampRecord s = s := stampRecord_eq_self s hlen hb hv
  have hmag := read16_magic_head s
  have hdrop : (bytes2 SETTINGS_MAGIC ++ s).drop 2 = s := rfl
  unfold settingsSave
  rw [hstamp]
  simp [settingsLoad, hmag, hdrop, List.take_of_length_le (le_of_eq hlen), hv]

/-- C3 amended witness: round trip at the default record. -/
theorem settingsSave_load_roundtrip_witness :
    settingsLoad (settingsSave settingsReset) =
      (settingsReset, settingsSave settingsReset) :=
  settingsSave_load_roundtrip settingsReset (by decide) (by decide) (by decide)

theorem getD_append_cons_ne {p t : List Nat} (b1 b2 : Nat) {n : Nat}
    (h : n ≠ p.length) :
    (p ++ b1 :: t).getD n 0 = (p ++ b2 :: t).getD n 0 := by
  by_cases hn : n < p.length
  · rw [List.getD_append _ _ _ _ hn, List.getD_append _ _ _ _ hn]
  · have h1 : p.length ≤ n := by omega
    rw [List.getD_append_right _ _ _ _ h1, List.getD_append_right _ _ _ _ h1,
      show n - p.length = (n - p.length - 1) + 1 by omega,
      List.getD_cons_succ, List.getD_cons_succ]

theorem getD_append_cons_self (p t : List Nat) (b : Nat) :
    (p ++ b :: t).getD p.length 0 = b := by
  rw [List.getD_append_right _ _ _ _ (le_refl _), Nat.sub_self, List.getD_cons_zero]

/-- C5: take a validly persisted settings region (magic plus a record passing
settingsValidate) and flip exactly one byte of the stored record (any of its
88 bytes, the 2-byte magic excluded): the following settingsLoad rejects the
record and returns the factory defaults, persisting them. -/
theorem settingsLoad_detects_corruption (p t : List Nat) (old v : Nat)
    (hp : ∀ x ∈ p, x < 256) (ht : ∀ x ∈ t, x < 256)
    (hold : old < 256) (hv256 : v < 256) (hne : v ≠ old)
    (hlen : (p ++ old :: t).length = 88)
    (hvalid : settingsValidate (p ++ old :: t) = true) :
    settingsLoad (bytes2 SETTINGS_MAGIC ++ (p ++ v :: t)) =
      (settingsReset, settingsSave settingsReset) := by
  have hlenp : p.length + t.length + 1 = 88 := by
    simp only [List.length_append, List.length_cons] at hlen
    omega
  have hlen2 : (p ++ v :: t).length = 88 := by
    simp only [List.length_append, List.length_cons]
    omega
  obtain ⟨hver1, hcrc1, _⟩ := settingsValidate_spec hvalid
  have hinv : settingsCalculateCRC (p ++ v :: t) ≠ crcFieldOf (p ++ v :: t) := by
    by_cases hj : p.length < 84
    · have hfield : crcFieldOf (p ++ v :: t) = crcFieldOf (p ++ old :: t) := by
        unfold crcFieldOf read32
        rw [getD_append_cons_ne v old (by omega), getD_append_cons_ne v old (by omega),
          getD_append_cons_ne v old (by omega), getD_append_cons_ne v old (by omega)]
      have htake1 : (p ++ old :: t).take 84 = p ++ old :: t.take (83 - p.length) := by
        rw [List.take_append_eq_append_take, List.take_of_length_le (by omega),
          show 84 - p.length = (83 - p.length) + 1 by omega, List.take_succ_cons]
      have htake2 : (p ++ v :: t).take 84 = p ++ v :: t.take (83 - p.length) := by
        rw [List.take_append_eq_append_take, List.take_of_length_le (by omega),
          show 84 - p.length = (83 - p.length) + 1 by omega, List.take_succ_cons]
      have hcrcne : settingsCalculateCRC (p ++ v :: t) ≠
          settingsCalculateCRC (p ++ old :: t) := by
        unfold settingsCalculateCRC
        rw [htake1, htake2]
        exact crc32bytes_ne_single
          (fun x hx => lt_trans (hp x hx) (by norm_num))
          (fun x hx => lt_trans (ht x (List.mem_of_mem_take hx)) (by norm_num))
          (by omega) (by omega) hne
      rw [hfield, ← hcrc1]
      exact hcrcne
    · have htake : (p ++ v :: t).take 84 = (p ++ old :: t).take 84 := by
        rw [List.take_append_eq_append_take, List.take_append_eq_append_take,
          show 84 - p.length = 0 by omega]
        simp
      have hcrceq : settingsCalculateCRC (p ++ v :: t) =
          settingsCalculateCRC (p ++ old :: t) := by
        unfold settingsCalculateCRC
        rw [htake]
      have hfne : crcFieldOf (p ++ v :: t) ≠ crcFieldOf (p ++ old :: t) := by
        have hsel1 := getD_append_cons_self p t old
        have hsel2 := getD_append_cons_self p t v
        have hcase : p.length = 84 ∨ p.length = 85 ∨ p.length = 86 ∨
            p.length = 87 := by omega
        unfold crcFieldOf read32
        simp only [show (84 : Nat) + 1 = 85 from rfl, show (84 : Nat) + 2 = 86 from rfl,
          show (84 : Nat) + 3 = 87 from rfl]
        rcases hcase with hc | hc | hc | hc
        · rw [hc] at hsel1 hsel2
          rw [hsel1, hsel2, getD_append_cons_ne v old (by omega : (85 : Nat) ≠ p.length),
            getD_append_cons_ne v old (by omega : (86 : Nat) ≠ p.length),
            getD_append_cons_ne v old (by omega : (87 : Nat) ≠ p.length)]
          omega
        · rw [hc] at hsel1 hsel2
          rw [hsel1, hsel2, getD_append_cons_ne v old (by omega : (84 : Nat) ≠ p.length),
            getD_append_cons_ne v old (by omega : (86 : Nat) ≠ p.length),
            getD_append_cons_ne v old (by omega : (87 : Nat) ≠ p.length)]
          omega
        · rw [hc] at hsel1 hsel2
          rw [hsel1, hsel2, getD_append_cons_ne v old (by omega : (84 : Nat) ≠ p.length),
            getD_append_cons_ne v old (by omega : (85 : Nat) ≠ p.length),
            getD_append_cons_ne v old (by omega : (87 : Nat) ≠ p.length)]
          omega
        · rw [hc] at hsel1 hsel2
          rw [hsel1, hsel2, getD_append_cons_ne v old (by omega : (84 : Nat) ≠ p.length),
            getD_append_cons_ne v old (by omega : (85 : Nat) ≠ p.length),
            getD_append_cons_ne v old (by omega : (86 : Nat) ≠ p.length)]
          omega
      rw [hcrceq, hcrc1]
      exact fun h => hfne h.symm
  have hval2 : settingsValidate (p ++ v :: t) = false := by
    unfold settingsValidate
    by_cases hv1 : versionOf (p ++ v :: t) ≠ FIRMWARE_VERSION
    · rw [if_pos hv1]
    · rw [if_neg hv1, if_pos hinv]
  have hmag := read16_magic_head (p ++ v :: t)
  have hdrop : (bytes2 SETTINGS_MAGIC ++ (p ++ v :: t)).drop 2 = p ++ v :: t := rfl
  simp [settingsLoad, hmag, hdrop, List.take_of_length_le (le_of_eq hlen2), hval2]

/-- C5 witness: flipping the first byte (the low version byte) of the default
record makes the next load return the pristine defaults. -/
theorem settingsLoad_detects_corruption_witness :
    settingsLoad (bytes2 SETTINGS_MAGIC ++ ([] ++ 3 :: settingsReset.drop 1)) =
      (settingsReset, settingsSave settingsReset) :=
  settingsLoad_detects_corruption [] (settingsReset.drop 1) 2 3
    (by decide) (by decide) (by decide) (by decide) (by decide) (by decide) (by decide)

/-- C6: starting from an absent boot-counter record (magic mismatch) or from
a state written by bootCounterReset, exactly 5 consecutive increments make
bootCounterCheckFailsafe true while 4 leave it false, and bootCounterReset
stores count exactly 0 whatever was there before. -/
theorem bootCounter_threshold (c : BootCounter) (now : Nat)
    (h : c.magic ≠ BOOT_COUNTER_MAGIC) :
    bootCounterCheckFailsafe (bootCounterIncrement (bootCounterIncrement
      (bootCounterIncrement (bootCounterIncrement
        (bootCounterIncrement c))))) = true ∧
    bootCounterCheckFailsafe (bootCounterIncrement (bootCounterIncrement
      (bootCounterIncrement (bootCounterIncrement c)))) = false ∧
    bootCounterCheckFailsafe (bootCounterIncrement (bootCounterIncrement
      (bootCounterIncrement (bootCounterIncrement
        (bootCounterIncrement (bootCounterReset now)))))) = true ∧
    bootCounterCheckFailsafe (bootCounterIncrement (bootCounterIncrement
      (bootCounterIncrement (bootCounterIncrement
        (bootCounterReset now))))) = false ∧
    bootCounterGet (bootCounterReset now) = 0 := by
  have h1 : bootCounterIncrement c = ⟨BOOT_COUNTER_MAGIC, 1, 0⟩ := by
    unfold bootCounterIncrement
    rw [if_neg h]
  rw [h1]
  refine ⟨by decide, by decide, ?_, ?_, ?_⟩ <;>
    simp [bootCounterReset, bootCounterIncrement, bootCounterGet,
      bootCounterCheckFailsafe, BOOT_FAILURE_THRESHOLD, BOOT_COUNTER_MAGIC]

/-- C6 witness at a concrete absent record. -/
theorem bootCounter_threshold_witness :
    bootCounterCheckFailsafe (bootCounterIncrement (bootCounterIncrement
      (bootCounterIncrement (bootCounterIncrement
        (bootCounterIncrement ⟨0, 0, 0⟩))))) = true :=
  (bootCounter_threshold ⟨0, 0, 0⟩ 0 (by decide)).1

/-- C10: with a valid magic the stored failCount wraps modulo 256 on
increment (it is a uint8); incrementing a stored count of 255 stores 0 and
the threshold check then returns false. -/
theorem bootCounterIncrement_wraps (c : BootCounter)
    (h : c.magic = BOOT_COUNTER_MAGIC) :
    (bootCounterIncrement c).failCount = (c.failCount + 1) % 256 ∧
    (bootCounterIncrement { c with failCount := 255 }).failCount = 0 ∧
    bootCounterCheckFailsafe
      (bootCounterIncrement { c with failCount := 255 }) = false := by
  unfold bootCounterIncrement bootCounterCheckFailsafe bootCounterGet
  simp [h, BOOT_FAILURE_THRESHOLD]

/-- C10 witness at a concrete record holding 255. -/
theorem bootCounterIncrement_wraps_witness :
    (bootCounterIncrement ⟨BOOT_COUNTER_MAGIC, 255, 7⟩).failCount =
      (255 + 1) % 256 :=
  (bootCounterIncrement_wraps ⟨BOOT_COUNTER_MAGIC, 255, 7⟩ rfl).1

/-- C1 counterexample: the HTTP-triggered factory reset (handleFactoryReset)
does not clear the power-cycle counter: with a stored cycle count of 3, the
persisted count still reads 3 (not 0) when the sequence reaches its final
restart. -/
theorem handleFactoryReset_keeps_power_counter :
    powerCycleCounterGet (handleFactoryReset
      ⟨[], ⟨0, 0, 0⟩, ⟨POWER_CYCLE_COUNTER_MAGIC, 3⟩⟩ 0).power ≠ 0 := by decide

/-- C1 amended: the power-cycle-gesture factory reset in setup() ends with
power-cycle counter 0, boot counter 0 and the validated factory defaults
persisted in the settings region; the HTTP factory reset ends with boot
counter 0 and the same validated defaults but leaves the power-cycle counter
region untouched. -/
theorem factoryReset_state (e : EEPROMState) (now : Nat) :
    powerCycleCounterGet (setupFactoryReset e now).power = 0 ∧
    bootCounterGet (setupFactoryReset e now).boot = 0 ∧
    (setupFactoryReset e now).settingsRegion = settingsSave settingsReset ∧
    stampRecord settingsReset = settingsReset ∧
    settingsValidate settingsReset = true ∧
    bootCounterGet (handleFactoryReset e now).boot = 0 ∧
    (handleFactoryReset e now).settingsRegion = settingsSave settingsReset ∧
    (handleFactoryReset e now).power = e.power := by
  refine ⟨?_, ?_, rfl, by decide, by decide, ?_, rfl, rfl⟩ <;>
    simp [setupFactoryReset, handleFactoryReset, powerCycleCounterGet,
      powerCycleCounterReset, bootCounterGet, bootCounterReset]

/-- C1 amended witness at a concrete EEPROM state. -/
theorem factoryReset_state_witness :
    powerCycleCounterGet (setupFactoryReset ⟨[], ⟨0, 0, 0⟩, ⟨0, 0⟩⟩ 5).power = 0 :=
  (factoryReset_state ⟨[], ⟨0, 0, 0⟩, ⟨0, 0⟩⟩ 5).1

theorem tryConnectGo_no_restart (connectOK : Nat → Bool) :
    ∀ (n a : Nat), WifiEvent.restart ∉ (tryConnectGo connectOK a n).2 := by
  intro n
  induction n with
  | zero => intro a; simp [tryConnectGo]
  | succ m ih =>
    intro a
    by_cases h : connectOK a
    · simp [tryConnectGo, h]
    · by_cases hm : m = 0
      · simp [tryConnectGo, h, hm]
      · simp only [tryConnectGo, h, hm, Bool.false_eq_true, if_false,
          List.mem_cons]
        push_neg
        exact ⟨by simp, by simp, ih (a + 1)⟩

theorem tryConnectGo_attempts_le (connectOK : Nat → Bool) :
    ∀ (n a : Nat), (tryConnectGo connectOK a n).2.countP isTimedAttempt ≤ n := by
  intro n
  induction n with
  | zero => intro a; simp [tryConnectGo]
  | succ m ih =>
    intro a
    by_cases h : connectOK a
    · simp [tryConnectGo, h, List.countP_cons, isTimedAttempt]
    · by_cases hm : m = 0
      · simp [tryConnectGo, h, hm, List.countP_cons, isTimedAttempt]
      · have := ih (a + 1)
        simp [tryConnectGo, h, hm, List.countP_cons, isTimedAttempt]
        omega

/-- C7: when a saved identity exists and every connection attempt fails, the
initial acquisition makes exactly 5 timed attempts, the backoff delay after
attempt k is min(WIFI_RETRY_DELAY_MS * 2^(k-1), 30000) = 2000 * 2^(k-1)
(2s, 4s, 8s, 16s: strictly increasing, always below the 30s cap), and the
config portal is entered right after the fifth attempt. -/
theorem wifi_five_attempts_then_portal (ssid : String) (connectOK : Nat → Bool)
    (portalOK : Bool) (hssid : ssid.isEmpty = false)
    (hfail : ∀ k, connectOK k = false) :
    tryConnectWiFi connectOK WIFI_RETRY_ATTEMPTS =
      (false,
        [WifiEvent.attemptWait 1, WifiEvent.backoffDelay 2000,
         WifiEvent.attemptWait 2, WifiEvent.backoffDelay 4000,
         WifiEvent.attemptWait 3, WifiEvent.backoffDelay 8000,
         WifiEvent.attemptWait 4, WifiEvent.backoffDelay 16000,
         WifiEvent.attemptWait 5]) ∧
    (∀ k, 1 ≤ k → k ≤ 4 →
      min (WIFI_RETRY_DELAY_MS * 2 ^ (k - 1)) 30000 = 2000 * 2 ^ (k - 1)) ∧
    ((2000 : Nat) < 4000 ∧ (4000 : Nat) < 8000 ∧ (8000 : Nat) < 16000) ∧
    (setupWiFi ssid connectOK portalOK).2.take 10 =
      [WifiEvent.attemptWait 1, WifiEvent.backoffDelay 2000,
       WifiEvent.attemptWait 2, WifiEvent.backoffDelay 4000,
       WifiEvent.attemptWait 3, WifiEvent.backoffDelay 8000,
       WifiEvent.attemptWait 4, WifiEvent.backoffDelay 16000,
       WifiEvent.attemptWait 5, WifiEvent.configPortal] ∧
    (setupWiFi ssid connectOK portalOK).2.countP isTimedAttempt = 5 := by
  have htry : tryConnectWiFi connectOK WIFI_RETRY_ATTEMPTS =
      (false,
        [WifiEvent.attemptWait 1, WifiEvent.backoffDelay 2000,
         WifiEvent.attemptWait 2, WifiEvent.backoffDelay 4000,
         WifiEvent.attemptWait 3, WifiEvent.backoffDelay 8000,
         WifiEvent.attemptWait 4, WifiEvent.backoffDelay 16000,
         WifiEvent.attemptWait 5]) := by
    simp [tryConnectWiFi, WIFI_RETRY_ATTEMPTS, tryConnectGo, hfail,
      WIFI_RETRY_DELAY_MS]
  refine ⟨htry, ?_, by decide, ?_, ?_⟩
  · intro k h1 h2
    interval_cases k <;> decide
  · cases portalOK <;> (simp [setupWiFi, hssid, htry]; try decide)
  · cases portalOK <;> (simp [setupWiFi, hssid, htry]; try decide)

/-- C7 witness at a concrete never-succeeding oracle. -/
theorem wifi_five_attempts_then_portal_witness :
    (setupWiFi "x" (fun _ => false) false).2.countP isTimedAttempt = 5 :=
  (wifi_five_attempts_then_portal "x" (fun _ => false) false rfl
    (fun _ => rfl)).2.2.2.2

/-- C8: with no saved SSID, setupWiFi goes straight to the failsafe AP: the
failsafe flag ends true, the only event is the AP start, and the trace holds
no timed connection attempt and no backoff wait. -/
theorem wifi_no_saved_ssid (connectOK : Nat → Bool) (portalOK : Bool) :
    (setupWiFi "" connectOK portalOK).1 = true ∧
    (setupWiFi "" connectOK portalOK).2 = [WifiEvent.failsafeAP] ∧
    (setupWiFi "" connectOK portalOK).2.countP isTimedAttempt = 0 ∧
    (setupWiFi "" connectOK portalOK).2.countP isBackoff = 0 := by
  have he : ("" : String).isEmpty = true := rfl
  refine ⟨?_, ?_, ?_, ?_⟩ <;> simp [setupWiFi, he, isTimedAttempt, isBackoff]

/-- C8 witness at a concrete oracle. -/
theorem wifi_no_saved_ssid_witness :
    (setupWiFi "" (fun _ => true) true).1 = true :=
  (wifi_no_saved_ssid (fun _ => true) true).1

/-- C9: monitorWiFi emits no restart while the failsafe flag is off (at most 3
quick attempts; with the link down and a never-succeeding oracle it makes
exactly 3 attempts, raises the failsafe flag and starts the AP, still without
restart); with the failsafe flag on, saved credentials, the reconnect
interval elapsed and a succeeding reconnect, it emits a restart. -/
theorem monitorWiFi_restart_direction (st : MonState) (now : Nat)
    (ssid : String) (connected : Bool) (connectOK : Nat → Bool) :
    (st.wifiFailsafeMode = false →
      WifiEvent.restart ∉ (monitorWiFi st now ssid connected connectOK).2 ∧
      (monitorWiFi st now ssid connected connectOK).2.countP isTimedAttempt ≤ 3) ∧
    (st.wifiFailsafeMode = false → connected = false →
      WIFI_MONITOR_INTERVAL < now - st.lastWiFiCheck →
      (∀ k, connectOK k = false) →
      (monitorWiFi st now ssid connected connectOK).1.wifiFailsafeMode = true ∧
      WifiEvent.failsafeAP ∈ (monitorWiFi st now ssid connected connectOK).2 ∧
      (monitorWiFi st now ssid connected connectOK).2.countP isTimedAttempt = 3) ∧
    (st.wifiFailsafeMode = true → ssid.isEmpty = false →
      WIFI_RECONNECT_INTERVAL < now - st.lastWiFiReconnectAttempt →
      (tryConnectWiFi connectOK 2).1 = true →
      WifiEvent.restart ∈ (monitorWiFi st now ssid connected connectOK).2) := by
  refine ⟨?_, ?_, ?_⟩
  · intro hfs
    have hnr := tryConnectGo_no_restart connectOK 3 1
    have hct := tryConnectGo_attempts_le connectOK 3 1
    by_cases h1 : WIFI_MONITOR_INTERVAL < now - st.lastWiFiCheck
    · by_cases h2 : connected = false
      · rcases hr : tryConnectWiFi connectOK 3 with ⟨ok, evs⟩
        unfold tryConnectWiFi at hr
        rw [hr] at hnr hct
        have hmono : monitorWiFi st now ssid connected connectOK =
            (if ok then ({ st with lastWiFiCheck := now }, evs)
             else ({ st with lastWiFiCheck := now, wifiFailsafeMode := true },
               evs ++ [WifiEvent.failsafeAP])) := by
          simp [monitorWiFi, hfs, h1, h2, tryConnectWiFi, hr]
        rw [hmono]
        cases ok
        · refine ⟨?_, ?_⟩
          · simp [hnr]
          · simpa [List.countP_append, isTimedAttempt] using hct
        · exact ⟨hnr, hct⟩
      · have hconn : connected = true := by
          revert h2; cases connected <;> simp
        have hmono : monitorWiFi st now ssid connected connectOK =
            ({ st with lastWiFiCheck := now }, []) := by
          simp [monitorWiFi, hfs, h1, hconn]
        rw [hmono]
        simp
    · have hmono : monitorWiFi st now ssid connected connectOK = (st, []) := by
        simp [monitorWiFi, hfs, h1]
      rw [hmono]
      simp
  · intro hfs hconn h1 hfail
    rcases hr : tryConnectWiFi connectOK 3 with ⟨ok, evs⟩
    have hok : ok = false := by
      have h := congrArg Prod.fst hr
      simpa [tryConnectWiFi, tryConnectGo, hfail] using h.symm
    subst hok
    have hcount : evs.countP isTimedAttempt = 3 := by
      have h := congrArg Prod.snd hr
      have h2 := congrArg (List.countP isTimedAttempt) h
      simpa [tryConnectWiFi, tryConnectGo, hfail, List.countP_cons,
        isTimedAttempt] using h2.symm
    have hmono : monitorWiFi st now ssid connected connectOK =
        ({ st with lastWiFiCheck := now, wifiFailsafeMode := true },
          evs ++ [WifiEvent.failsafeAP]) := by
      simp [monitorWiFi, hfs, h1, hconn, hr]
    rw [hmono]
    refine ⟨rfl, by simp, ?_⟩
    simp [List.countP_append, hcount, isTimedAttempt]
  · intro hfs hssid h1 hok
    rcases hr : tryConnectWiFi connectOK 2 with ⟨ok, evs⟩
    rw [hr] at hok
    simp only at hok
    subst hok
    have hmono : monitorWiFi st now ssid connected connectOK =
        ({ st with wifiFailsafeMode := false, lastWiFiReconnectAttempt := now },
          evs ++ [WifiEvent.restart]) := by
      simp [monitorWiFi, hfs, hssid, h1, hr]
    rw [hmono]
    simp

/-- C9 witness: a successful reconnect while in failsafe mode restarts. -/
theorem monitorWiFi_restart_direction_witness :
    WifiEvent.restart ∈
      (monitorWiFi ⟨true, 0, 0⟩ 300001 "x" false (fun _ => true)).2 :=
  (monitorWiFi_restart_direction ⟨true, 0, 0⟩ 300001 "x" false
    (fun _ => true)).2.2 rfl rfl (by decide) (by decide)

theorem int32bytes_length (v : Int) : (int32bytes v).length = 4 := rfl

theorem mem_int32bytes_bound (v : Int) : ∀ x ∈ int32bytes v, x < 256 := by
  unfold int32bytes
  exact mem_bytes4_bound _

theorem constrain_mem {x a b : Int} (hab : a ≤ b) :
    a ≤ constrain x a b ∧ constrain x a b ≤ b := by
  unfold constrain
  split_ifs <;> omega

/-- Writing a signed value in range and reading the field back round-trips. -/
theorem toInt32_read32_int32bytes {l : List Nat} {i : Nat} {v : Int}
    (hlen : i + 4 ≤ l.length) (h1 : -(2 ^ 31) ≤ v) (h2 : v < 2 ^ 31) :
    toInt32 (read32 (writeBytes l i (int32bytes v)) i) = v := by
  unfold int32bytes
  rw [read32_writeBytes_bytes4 hlen (by omega)]
  unfold toInt32
  split_ifs with h <;> omega

theorem mem_lastImageOf {s : List Nat} (hb : ∀ x ∈ s, x < 256) :
    ∀ x ∈ lastImageOf s, x < 256 := fun x hx =>
  hb x (List.mem_of_mem_drop (List.mem_of_mem_take hx))

theorem mem_strncpy63_bound {field img : List Nat}
    (hf : ∀ x ∈ field, x < 256) (hi : ∀ x ∈ img, x < 256) :
    ∀ x ∈ strncpy63 field img, x < 256 := by
  intro x hx
  unfold strncpy63 at hx
  rcases List.mem_append.mp hx with h | h
  · rcases List.mem_append.mp h with h2 | h2
    · exact hi x (List.mem_of_mem_take h2)
    · have := List.eq_of_mem_replicate h2
      omega
  · exact hf x (List.mem_of_mem_drop (List.mem_of_mem_take h))

/-- C4 counterexample: the theme setter of handleSet persists its raw
argument: setting theme 11 on the default record stores a record whose theme
field is 11, violating the stored-record invariant theme in 0..10, even
though the CRC is recomputed and the record persisted. -/
theorem handleSet_theme_breaks_invariant :
    (handleSet { theme := some 11 } settingsReset).2 =
      some (settingsSave (writeBytes settingsReset 8 (int32bytes 11))) ∧
    10 < themeOf (stampRecord (writeBytes settingsReset 8 (int32bytes 11))) := by
  constructor
  · rfl
  · decide

/-- C4 amended: every mutating /set operation persists via settingsSave
(version stamped, CRC recomputed); the brightness setter clamps into 0..100
and the brightness, image-path and GMT-offset setters preserve the
stored-record invariant (brightness in 0..100, theme in 0..10), and so does
the theme setter when its argument is in 0..10 — but the theme setter itself
enforces no range on the value it stores. -/
theorem handleSet_persists_and_preserves (s img : List Nat) (b t g : Int)
    (hlen : s.length = 88) (hb : ∀ x ∈ s, x < 256)
    (himg : ∀ x ∈ img, x < 256)
    (hbr0 : 0 ≤ brightnessOf s) (hbr1 : brightnessOf s ≤ 100)
    (hth0 : 0 ≤ themeOf s) (hth1 : themeOf s ≤ 10)
    (ht0 : 0 ≤ t) (ht1 : t ≤ 10) :
    (handleSet { brt := some b } s).2 =
      some (settingsSave (writeBytes s 4 (int32bytes (constrain b 0 100)))) ∧
    settingsValidate
      (stampRecord (writeBytes s 4 (int32bytes (constrain b 0 100)))) = true ∧
    (handleSet { theme := some t } s).2 =
      some (settingsSave (writeBytes s 8 (int32bytes t))) ∧
    settingsValidate (stampRecord (writeBytes s 8 (int32bytes t))) = true ∧
    (handleSet { img := some img } s).2 =
      some (settingsSave (writeBytes s 12 (strncpy63 (lastImageOf s) img))) ∧
    settingsValidate
      (stampRecord (writeBytes s 12 (strncpy63 (lastImageOf s) img))) = true ∧
    (handleSet { gmt := some g } s).2 =
      some (settingsSave (writeBytes s 76 (int32bytes g))) ∧
    settingsValidate (stampRecord (writeBytes s 76 (int32bytes g))) = true := by
  obtain ⟨hc0, hc1⟩ := @constrain_mem b 0 100 (by norm_num)
  refine ⟨rfl, ?_, rfl, ?_, rfl, ?_, rfl, ?_⟩
  · apply settingsValidate_stampRecord
    · rw [writeBytes_length, hlen]
    · exact mem_writeBytes_bound _ s 4 hb (mem_int32bytes_bound _)
    · unfold brightnessOf
      rw [toInt32_read32_int32bytes (by omega) (by omega) (by omega)]
      exact hc0
    · unfold brightnessOf
      rw [toInt32_read32_int32bytes (by omega) (by omega) (by omega)]
      exact hc1
    · unfold themeOf
      rw [read32_writeBytes_out (Or.inr (by rw [int32bytes_length]))]
      exact hth0
    · unfold themeOf
      rw [read32_writeBytes_out (Or.inr (by rw [int32bytes_length]))]
      exact hth1
  · apply settingsValidate_stampRecord
    · rw [writeBytes_length, hlen]
    · exact mem_writeBytes_bound _ s 8 hb (mem_int32bytes_bound _)
    · unfold brightnessOf
      rw [read32_writeBytes_out (Or.inl (by norm_num))]
      exact hbr0
    · unfold brightnessOf
      rw [read32_writeBytes_out (Or.inl (by norm_num))]
      exact hbr1
    · unfold themeOf
      rw [toInt32_read32_int32bytes (by omega) (by omega) (by omega)]
      exact ht0
    · unfold themeOf
      rw [toInt32_read32_int32bytes (by omega) (by omega) (by omega)]
      exact ht1
  · apply settingsValidate_stampRecord
    · rw [writeBytes_length, hlen]
    · exact mem_writeBytes_bound _ s 12 hb
        (mem_strncpy63_bound (mem_lastImageOf hb) himg)
    · unfold brightnessOf
      rw [read32_writeBytes_out (Or.inl (by norm_num))]
      exact hbr0
    · unfold brightnessOf
      rw [read32_writeBytes_out (Or.inl (by norm_num))]
      exact hbr1
    · unfold themeOf
      rw [read32_writeBytes_out (Or.inl (by norm_num))]
      exact hth0
    · unfold themeOf
      rw [read32_writeBytes_out (Or.inl (by norm_num))]
      exact hth1
  · apply settingsValidate_stampRecord
    · rw [writeBytes_length, hlen]
    · exact mem_writeBytes_bound _ s 76 hb (mem_int32bytes_bound _)
    · unfold brightnessOf
      rw [read32_writeBytes_out (Or.inl (by norm_num))]
      exact hbr0
    · unfold brightnessOf
      rw [read32_writeBytes_out (Or.inl (by norm_num))]
      exact hbr1
    · unfold themeOf
      rw [read32_writeBytes_out (Or.inl (by norm_num))]
      exact hth0
    · unfold themeOf
      rw [read32_writeBytes_out (Or.inl (by norm_num))]
      exact hth1

/-- C4 amended witness at the default record. -/
theorem handleSet_persists_and_preserves_witness :
    settingsValidate
      (stampRecord (writeBytes settingsReset 4 (int32bytes (constrain 55 0 100)))) =
      true :=
  (handleSet_persists_and_preserves settingsReset [] 55 5 0
    (by decide) (by decide) (by decide) (by decide) (by decide)
    (by decide) (by decide) (by decide) (by decide)).2.1
